import Mathlib

/-!
Shallow embedding of the sowback reverse-tunnel proxy (Rust) for claim
verification: the bincode-style wire codec (`src/utils/protocol.rs`), the
resumable frame reader (`src/utils/frame_reader.rs`), the crypto helpers
(`src/utils/crypto.rs`), the server registries and their message handler
(`src/server/mod.rs`), and the client's `NewConnection` dispatch
(`src/client.rs`).  Byte strings (Rust `Vec<u8>`, `String`) are modelled as
`List Nat` of byte values; machine integers are `Nat` with explicit
truncation (`% 2^32`) exactly where the source casts.
-/

namespace Sowback

/-! ## Little-endian byte strings and the bincode varint encoding -/

/-- Two little-endian bytes of `n` (bincode `u16` wide encoding). -/
def le2 (n : Nat) : List Nat := [n % 256, n / 2 ^ 8 % 256]

/-- Four little-endian bytes of `n` (bincode `u32` wide encoding). -/
def le4 (n : Nat) : List Nat :=
  [n % 256, n / 2 ^ 8 % 256, n / 2 ^ 16 % 256, n / 2 ^ 24 % 256]

/-- Eight little-endian bytes of `n` (bincode `u64` wide encoding). -/
def le8 (n : Nat) : List Nat :=
  [n % 256, n / 2 ^ 8 % 256, n / 2 ^ 16 % 256, n / 2 ^ 24 % 256,
   n / 2 ^ 32 % 256, n / 2 ^ 40 % 256, n / 2 ^ 48 % 256, n / 2 ^ 56 % 256]

/-- Sixteen little-endian bytes of `n` (bincode `u128` wide encoding). -/
def le16 (n : Nat) : List Nat :=
  [n % 256, n / 2 ^ 8 % 256, n / 2 ^ 16 % 256, n / 2 ^ 24 % 256,
   n / 2 ^ 32 % 256, n / 2 ^ 40 % 256, n / 2 ^ 48 % 256, n / 2 ^ 56 % 256,
   n / 2 ^ 64 % 256, n / 2 ^ 72 % 256, n / 2 ^ 80 % 256, n / 2 ^ 88 % 256,
   n / 2 ^ 96 % 256, n / 2 ^ 104 % 256, n / 2 ^ 112 % 256, n / 2 ^ 120 % 256]

/-- Variable-length integer encoding of `bincode::config::standard()`:
values below 251 are a single byte, larger values get a width marker byte
followed by the little-endian bytes of the next integer width. -/
def encodeVarint (n : Nat) : List Nat :=
  if n < 251 then [n]
  else if n < 2 ^ 16 then 251 :: le2 n
  else if n < 2 ^ 32 then 252 :: le4 n
  else if n < 2 ^ 64 then 253 :: le8 n
  else 254 :: le16 n

/-- Reads `k` little-endian bytes from the front of `l` and recomposes the
integer, returning the remaining bytes. -/
def readLE : Nat → List Nat → Except String (Nat × List Nat)
  | 0, l => .ok (0, l)
  | _ + 1, [] => .error "Insufficient bytes for integer"
  | k + 1, b :: rest =>
    match readLE k rest with
    | .ok (v, r) => .ok (b + 256 * v, r)
    | .error e => .error e

/-- Decoder for `encodeVarint`. -/
def decodeVarint (l : List Nat) : Except String (Nat × List Nat) :=
  match l with
  | [] => .error "Insufficient bytes for varint"
  | b :: rest =>
    if b < 251 then .ok (b, rest)
    else if b = 251 then readLE 2 rest
    else if b = 252 then readLE 4 rest
    else if b = 253 then readLE 8 rest
    else if b = 254 then readLE 16 rest
    else .error "Invalid varint marker"

/-- A length-prefixed byte string (bincode `Vec<u8>` / UTF-8 `String`). -/
def encodeBytes (bs : List Nat) : List Nat := encodeVarint bs.length ++ bs

/-- Decoder for `encodeBytes`. -/
def decodeBytes (l : List Nat) : Except String (List Nat × List Nat) :=
  match decodeVarint l with
  | .error e => .error e
  | .ok (n, r) =>
    if r.length < n then .error "Insufficient bytes for byte string"
    else .ok (r.take n, r.drop n)

/-- A bincode `bool`: one byte, 0 or 1. -/
def encodeBool (b : Bool) : List Nat := [if b then 1 else 0]

/-- Decoder for `encodeBool`. -/
def decodeBool (l : List Nat) : Except String (Bool × List Nat) :=
  match l with
  | 0 :: rest => .ok (false, rest)
  | 1 :: rest => .ok (true, rest)
  | _ :: _ => .error "Invalid bool byte"
  | [] => .error "Insufficient bytes for bool"

/-- A bincode `Option<Vec<u8>>` / `Option<String>`: presence byte then payload. -/
def encodeOptBytes : Option (List Nat) → List Nat
  | none => [0]
  | some s => 1 :: encodeBytes s

/-- Decoder for `encodeOptBytes`. -/
def decodeOptBytes (l : List Nat) : Except String (Option (List Nat) × List Nat) :=
  match l with
  | 0 :: rest => .ok (none, rest)
  | 1 :: rest =>
    match decodeBytes rest with
    | .ok (s, r) => .ok (some s, r)
    | .error e => .error e
  | _ :: _ => .error "Invalid option tag"
  | [] => .error "Insufficient bytes for option"

/-! ## The protocol message set (`src/utils/protocol.rs`, `enum Message`) -/

/-- The closed message set of the tunnel protocol.  Rust `String` and
`Vec<u8>` fields are byte lists; `u16`/`u64` fields are `Nat`. -/
inductive Message where
  | Auth (enc_token : List Nat) (client_id : List Nat) (name : Option (List Nat))
  | AuthResponse (success : Bool) (session_key : Option (List Nat))
      (name : Option (List Nat)) (error : Option (List Nat))
  | ProxyConfig (local_ip : List Nat) (local_port : Nat) (remote_port : Nat)
  | ProxyConfigResponse (success : Bool) (proxy_id : Option (List Nat))
      (error : Option (List Nat))
  | Heartbeat (timestamp : Nat)
  | HeartbeatResponse (timestamp : Nat)
  | NewConnection (proxy_id : List Nat) (connection_id : List Nat)
  | ConnectionResponse (connection_id : List Nat) (success : Bool)
      (error : Option (List Nat))
  | Data (connection_id : List Nat) (data : List Nat)
  | CloseConnection (connection_id : List Nat)
  | Error (message : List Nat)
deriving DecidableEq

/-- Fields that are machine integers in Rust stay inside their integer
range (`u16` ports, `u64` timestamps); `Nat` is unbounded so the bound is
recorded as a side condition. -/
def Message.wfb : Message → Bool
  | .ProxyConfig _ lp rp => decide (lp < 2 ^ 16) && decide (rp < 2 ^ 16)
  | .Heartbeat ts => decide (ts < 2 ^ 64)
  | .HeartbeatResponse ts => decide (ts < 2 ^ 64)
  | _ => true

/-- bincode encoding of a message: varint variant discriminant in
declaration order, then the fields in order. -/
def encodeMessage : Message → List Nat
  | .Auth t c nm => encodeVarint 0 ++ encodeBytes t ++ encodeBytes c ++ encodeOptBytes nm
  | .AuthResponse s k nm e =>
      encodeVarint 1 ++ encodeBool s ++ encodeOptBytes k ++ encodeOptBytes nm ++ encodeOptBytes e
  | .ProxyConfig ip lp rp => encodeVarint 2 ++ encodeBytes ip ++ encodeVarint lp ++ encodeVarint rp
  | .ProxyConfigResponse s p e => encodeVarint 3 ++ encodeBool s ++ encodeOptBytes p ++ encodeOptBytes e
  | .Heartbeat ts => encodeVarint 4 ++ encodeVarint ts
  | .HeartbeatResponse ts => encodeVarint 5 ++ encodeVarint ts
  | .NewConnection p c => encodeVarint 6 ++ encodeBytes p ++ encodeBytes c
  | .ConnectionResponse c s e => encodeVarint 7 ++ encodeBytes c ++ encodeBool s ++ encodeOptBytes e
  | .Data c d => encodeVarint 8 ++ encodeBytes c ++ encodeBytes d
  | .CloseConnection c => encodeVarint 9 ++ encodeBytes c
  | .Error m => encodeVarint 10 ++ encodeBytes m

/-- bincode decoding of a message, mirroring `decode_from_slice`: reads the
discriminant, then the fields, and returns the unconsumed remainder. -/
def decodeMessage (l : List Nat) : Except String (Message × List Nat) :=
  match decodeVarint l with
  | .error e => .error e
  | .ok (d, r0) =>
    if d = 0 then
      match decodeBytes r0 with
      | .error e => .error e
      | .ok (t, r1) =>
        match decodeBytes r1 with
        | .error e => .error e
        | .ok (c, r2) =>
          match decodeOptBytes r2 with
          | .error e => .error e
          | .ok (nm, r3) => .ok (.Auth t c nm, r3)
    else if d = 1 then
      match decodeBool r0 with
      | .error e => .error e
      | .ok (s, r1) =>
        match decodeOptBytes r1 with
        | .error e => .error e
        | .ok (k, r2) =>
          match decodeOptBytes r2 with
          | .error e => .error e
          | .ok (nm, r3) =>
            match decodeOptBytes r3 with
            | .error e => .error e
            | .ok (er, r4) => .ok (.AuthResponse s k nm er, r4)
    else if d = 2 then
      match decodeBytes r0 with
      | .error e => .error e
      | .ok (ip, r1) =>
        match decodeVarint r1 with
        | .error e => .error e
        | .ok (lp, r2) =>
          match decodeVarint r2 with
          | .error e => .error e
          | .ok (rp, r3) => .ok (.ProxyConfig ip lp rp, r3)
    else if d = 3 then
      match decodeBool r0 with
      | .error e => .error e
      | .ok (s, r1) =>
        match decodeOptBytes r1 with
        | .error e => .error e
        | .ok (p, r2) =>
          match decodeOptBytes r2 with
          | .error e => .error e
          | .ok (er, r3) => .ok (.ProxyConfigResponse s p er, r3)
    else if d = 4 then
      match decodeVarint r0 with
      | .error e => .error e
      | .ok (ts, r1) => .ok (.Heartbeat ts, r1)
    else if d = 5 then
      match decodeVarint r0 with
      | .error e => .error e
      | .ok (ts, r1) => .ok (.HeartbeatResponse ts, r1)
    else if d = 6 then
      match decodeBytes r0 with
      | .error e => .error e
      | .ok (p, r1) =>
        match decodeBytes r1 with
        | .error e => .error e
        | .ok (c, r2) => .ok (.NewConnection p c, r2)
    else if d = 7 then
      match decodeBytes r0 with
      | .error e => .error e
      | .ok (c, r1) =>
        match decodeBool r1 with
        | .error e => .error e
        | .ok (s, r2) =>
          match decodeOptBytes r2 with
          | .error e => .error e
          | .ok (er, r3) => .ok (.ConnectionResponse c s er, r3)
    else if d = 8 then
      match decodeBytes r0 with
      | .error e => .error e
      | .ok (c, r1) =>
        match decodeBytes r1 with
        | .error e => .error e
        | .ok (dt, r2) => .ok (.Data c dt, r2)
    else if d = 9 then
      match decodeBytes r0 with
      | .error e => .error e
      | .ok (c, r1) => .ok (.CloseConnection c, r1)
    else if d = 10 then
      match decodeBytes r0 with
      | .error e => .error e
      | .ok (m, r1) => .ok (.Error m, r1)
    else .error "Invalid message discriminant"

/-! ## Frames (`src/utils/protocol.rs`, `struct Frame`) -/

/-- A decoded frame: the payload length from the wire and the message. -/
structure Frame where
  length : Nat
  message : Message
deriving DecidableEq

/-- Big-endian `u32` bytes, as produced by `u32::to_be_bytes`. -/
def be4 (n : Nat) : List Nat :=
  [n / 2 ^ 24 % 256, n / 2 ^ 16 % 256, n / 2 ^ 8 % 256, n % 256]

/-- `Frame::serialize`: bincode-encode the message, prefix the payload
length cast to `u32` (hence `% 2^32`) in big-endian. -/
def Frame.serialize (m : Message) : List Nat :=
  be4 ((encodeMessage m).length % 2 ^ 32) ++ encodeMessage m

/-- `Frame::deserialize`: parse the big-endian length, require the full
payload to be present, bincode-decode it, and report `4 + length` bytes
consumed. -/
def Frame.deserialize (data : List Nat) : Except String (Frame × Nat) :=
  match data with
  | b0 :: b1 :: b2 :: b3 :: rest =>
    let length := b0 * 2 ^ 24 + b1 * 2 ^ 16 + b2 * 2 ^ 8 + b3
    if rest.length < length then .error "Insufficient data for message"
    else
      match decodeMessage (rest.take length) with
      | .error e => .error ("Deserialization error: " ++ e)
      | .ok (msg, _) => .ok (⟨length, msg⟩, 4 + length)
  | _ => .error "Insufficient data for length field"

/-! ## Codec round-trip lemmas -/

theorem readLE_two (a b : Nat) (r : List Nat) :
    readLE 2 (a :: b :: r) = .ok (a + 256 * (b + 256 * 0), r) := rfl

theorem readLE_four (a b c d : Nat) (r : List Nat) :
    readLE 4 (a :: b :: c :: d :: r) =
      .ok (a + 256 * (b + 256 * (c + 256 * (d + 256 * 0))), r) := rfl

theorem readLE_eight (a b c d e f g h : Nat) (r : List Nat) :
    readLE 8 (a :: b :: c :: d :: e :: f :: g :: h :: r) =
      .ok (a + 256 * (b + 256 * (c + 256 * (d + 256 *
        (e + 256 * (f + 256 * (g + 256 * (h + 256 * 0))))))), r) := rfl

theorem readLE_sixteen (a b c d e f g h i j k l m o p q : Nat) (r : List Nat) :
    readLE 16 (a :: b :: c :: d :: e :: f :: g :: h ::
               i :: j :: k :: l :: m :: o :: p :: q :: r) =
      .ok (a + 256 * (b + 256 * (c + 256 * (d + 256 *
        (e + 256 * (f + 256 * (g + 256 * (h + 256 *
        (i + 256 * (j + 256 * (k + 256 * (l + 256 *
        (m + 256 * (o + 256 * (p + 256 * (q + 256 * 0))))))))))))))), r) := rfl

theorem decodeVarint_encodeVarint (n : Nat) (r : List Nat) (h : n < 2 ^ 128) :
    decodeVarint (encodeVarint n ++ r) = .ok (n, r) := by
  by_cases h1 : n < 251
  · simp [encodeVarint, decodeVarint, h1]
  · by_cases h2 : n < 2 ^ 16
    · simp only [encodeVarint, if_neg h1, if_pos h2, List.cons_append]
      simp only [decodeVarint, le2, List.cons_append, List.nil_append]
      norm_num [readLE_two]
      omega
    · by_cases h3 : n < 2 ^ 32
      · simp only [encodeVarint, if_neg h1, if_neg h2, if_pos h3, List.cons_append]
        simp only [decodeVarint, le4, List.cons_append, List.nil_append]
        norm_num [readLE_four]
        omega
      · by_cases h4 : n < 2 ^ 64
        · simp only [encodeVarint, if_neg h1, if_neg h2, if_neg h3, if_pos h4,
            List.cons_append]
          simp only [decodeVarint, le8, List.cons_append, List.nil_append]
          norm_num [readLE_eight]
          omega
        · simp only [encodeVarint, if_neg h1, if_neg h2, if_neg h3, if_neg h4,
            List.cons_append]
          simp only [decodeVarint, le16, List.cons_append, List.nil_append]
          norm_num [readLE_sixteen]
          omega

theorem decodeBytes_encodeBytes (bs : List Nat) (r : List Nat)
    (h : bs.length < 2 ^ 128) :
    decodeBytes (encodeBytes bs ++ r) = .ok (bs, r) := by
  simp only [encodeBytes, List.append_assoc, decodeBytes,
    decodeVarint_encodeVarint bs.length (bs ++ r) h]
  simp [List.take_append_of_le_length, List.drop_append_of_le_length]

theorem decodeBool_encodeBool (b : Bool) (r : List Nat) :
    decodeBool (encodeBool b ++ r) = .ok (b, r) := by
  cases b <;> simp [encodeBool, decodeBool]

theorem decodeOptBytes_encodeOptBytes (o : Option (List Nat)) (r : List Nat)
    (h : ∀ s, o = some s → s.length < 2 ^ 128) :
    decodeOptBytes (encodeOptBytes o ++ r) = .ok (o, r) := by
  cases o with
  | none => simp [encodeOptBytes, decodeOptBytes]
  | some s =>
    simp only [encodeOptBytes, List.cons_append, decodeOptBytes,
      decodeBytes_encodeBytes s r (h s rfl)]

theorem length_le_encodeBytes (bs : List Nat) :
    bs.length ≤ (encodeBytes bs).length := by
  simp [encodeBytes]

theorem length_le_encodeOptBytes (o : Option (List Nat)) (s : List Nat)
    (h : o = some s) : s.length < (encodeOptBytes o).length := by
  subst h
  simp only [encodeOptBytes, List.length_cons, encodeBytes, List.length_append]
  omega

/-- Round trip of the bincode message codec: decoding an encoded message
returns the message and the unconsumed remainder.  The side conditions
record that integer fields fit their Rust types and that the (unbounded
`Nat` model of the) total size stays below `2 ^ 32`. -/
theorem decodeMessage_encodeMessage (m : Message) (r : List Nat)
    (hwf : m.wfb = true) (hlen : (encodeMessage m).length < 2 ^ 32) :
    decodeMessage (encodeMessage m ++ r) = .ok (m, r) := by
  have hbig : (encodeMessage m).length < 2 ^ 128 := by
    calc (encodeMessage m).length < 2 ^ 32 := hlen
    _ < 2 ^ 128 := by norm_num
  cases m with
  | Auth t c nm =>
    have b1 : t.length < 2 ^ 128 := by
      have := length_le_encodeBytes t
      simp only [encodeMessage, List.length_append] at hbig
      omega
    have b2 : c.length < 2 ^ 128 := by
      have := length_le_encodeBytes c
      simp only [encodeMessage, List.length_append] at hbig
      omega
    have b3 : ∀ s, nm = some s → s.length < 2 ^ 128 := by
      intro s hs
      have := length_le_encodeOptBytes nm s hs
      simp only [encodeMessage, List.length_append] at hbig
      omega
    simp only [encodeMessage, List.append_assoc, decodeMessage]
    rw [decodeVarint_encodeVarint _ _ (by norm_num)]
    dsimp only
    rw [decodeBytes_encodeBytes _ _ b1]
    dsimp only
    rw [decodeBytes_encodeBytes _ _ b2]
    dsimp only
    rw [decodeOptBytes_encodeOptBytes _ _ b3]
    simp
  | AuthResponse s k nm er =>
    have b1 : ∀ x, k = some x → x.length < 2 ^ 128 := by
      intro x hx
      have := length_le_encodeOptBytes k x hx
      simp only [encodeMessage, List.length_append] at hbig
      omega
    have b2 : ∀ x, nm = some x → x.length < 2 ^ 128 := by
      intro x hx
      have := length_le_encodeOptBytes nm x hx
      simp only [encodeMessage, List.length_append] at hbig
      omega
    have b3 : ∀ x, er = some x → x.length < 2 ^ 128 := by
      intro x hx
      have := length_le_encodeOptBytes er x hx
      simp only [encodeMessage, List.length_append] at hbig
      omega
    simp only [encodeMessage, List.append_assoc, decodeMessage]
    rw [decodeVarint_encodeVarint _ _ (by norm_num)]
    dsimp only
    rw [decodeBool_encodeBool]
    dsimp only
    rw [decodeOptBytes_encodeOptBytes _ _ b1]
    dsimp only
    rw [decodeOptBytes_encodeOptBytes _ _ b2]
    dsimp only
    rw [decodeOptBytes_encodeOptBytes _ _ b3]
    simp
  | ProxyConfig ip lp rp =>
    have b1 : ip.length < 2 ^ 128 := by
      have := length_le_encodeBytes ip
      simp only [encodeMessage, List.length_append] at hbig
      omega
    simp only [Message.wfb, Bool.and_eq_true, decide_eq_true_eq] at hwf
    simp only [encodeMessage, List.append_assoc, decodeMessage]
    rw [decodeVarint_encodeVarint _ _ (by norm_num)]
    dsimp only
    rw [decodeBytes_encodeBytes _ _ b1]
    dsimp only
    rw [decodeVarint_encodeVarint _ _ (by omega)]
    dsimp only
    rw [decodeVarint_encodeVarint _ _ (by omega)]
    simp
  | ProxyConfigResponse s p er =>
    have b1 : ∀ x, p = some x → x.length < 2 ^ 128 := by
      intro x hx
      have := length_le_encodeOptBytes p x hx
      simp only [encodeMessage, List.length_append] at hbig
      omega
    have b2 : ∀ x, er = some x → x.length < 2 ^ 128 := by
      intro x hx
      have := length_le_encodeOptBytes er x hx
      simp only [encodeMessage, List.length_append] at hbig
      omega
    simp only [encodeMessage, List.append_assoc, decodeMessage]
    rw [decodeVarint_encodeVarint _ _ (by norm_num)]
    dsimp only
    rw [decodeBool_encodeBool]
    dsimp only
    rw [decodeOptBytes_encodeOptBytes _ _ b1]
    dsimp only
    rw [decodeOptBytes_encodeOptBytes _ _ b2]
    simp
  | Heartbeat ts =>
    simp only [Message.wfb, decide_eq_true_eq] at hwf
    simp only [encodeMessage, List.append_assoc, decodeMessage]
    rw [decodeVarint_encodeVarint _ _ (by norm_num)]
    dsimp only
    rw [decodeVarint_encodeVarint _ _ (by omega)]
    simp
  | HeartbeatResponse ts =>
    simp only [Message.wfb, decide_eq_true_eq] at hwf
    simp only [encodeMessage, List.append_assoc, decodeMessage]
    rw [decodeVarint_encodeVarint _ _ (by norm_num)]
    dsimp only
    rw [decodeVarint_encodeVarint _ _ (by omega)]
    simp
  | NewConnection p c =>
    have b1 : p.length < 2 ^ 128 := by
      have := length_le_encodeBytes p
      simp only [encodeMessage, List.length_append] at hbig
      omega
    have b2 : c.length < 2 ^ 128 := by
      have := length_le_encodeBytes c
      simp only [encodeMessage, List.length_append] at hbig
      omega
    simp only [encodeMessage, List.append_assoc, decodeMessage]
    rw [decodeVarint_encodeVarint _ _ (by norm_num)]
    dsimp only
    rw [decodeBytes_encodeBytes _ _ b1]
    dsimp only
    rw [decodeBytes_encodeBytes _ _ b2]
    simp
  | ConnectionResponse c s er =>
    have b1 : c.length < 2 ^ 128 := by
      have := length_le_encodeBytes c
      simp only [encodeMessage, List.length_append] at hbig
      omega
    have b2 : ∀ x, er = some x → x.length < 2 ^ 128 := by
      intro x hx
      have := length_le_encodeOptBytes er x hx
      simp only [encodeMessage, List.length_append] at hbig
      omega
    simp only [encodeMessage, List.append_assoc, decodeMessage]
    rw [decodeVarint_encodeVarint _ _ (by norm_num)]
    dsimp only
    rw [decodeBytes_encodeBytes _ _ b1]
    dsimp only
    rw [decodeBool_encodeBool]
    dsimp only
    rw [decodeOptBytes_encodeOptBytes _ _ b2]
    simp
  | Data c d =>
    have b1 : c.length < 2 ^ 128 := by
      have := length_le_encodeBytes c
      simp only [encodeMessage, List.length_append] at hbig
      omega
    have b2 : d.length < 2 ^ 128 := by
      have := length_le_encodeBytes d
      simp only [encodeMessage, List.length_append] at hbig
      omega
    simp only [encodeMessage, List.append_assoc, decodeMessage]
    rw [decodeVarint_encodeVarint _ _ (by norm_num)]
    dsimp only
    rw [decodeBytes_encodeBytes _ _ b1]
    dsimp only
    rw [decodeBytes_encodeBytes _ _ b2]
    simp
  | CloseConnection c =>
    have b1 : c.length < 2 ^ 128 := by
      have := length_le_encodeBytes c
      simp only [encodeMessage, List.length_append] at hbig
      omega
    simp only [encodeMessage, List.append_assoc, decodeMessage]
    rw [decodeVarint_encodeVarint _ _ (by norm_num)]
    dsimp only
    rw [decodeBytes_encodeBytes _ _ b1]
    simp
  | Error msg =>
    have b1 : msg.length < 2 ^ 128 := by
      have := length_le_encodeBytes msg
      simp only [encodeMessage, List.length_append] at hbig
      omega
    simp only [encodeMessage, List.append_assoc, decodeMessage]
    rw [decodeVarint_encodeVarint _ _ (by norm_num)]
    dsimp only
    rw [decodeBytes_encodeBytes _ _ b1]
    simp

/-- Round trip of the frame codec: for a message whose encoded payload fits
the `u32` length field, `Frame::deserialize ∘ Frame::serialize` returns the
message and consumes `4 + payload length` bytes. -/
theorem deserialize_serialize (m : Message) (hwf : m.wfb = true)
    (hlen : (encodeMessage m).length < 2 ^ 32) :
    Frame.deserialize (Frame.serialize m) =
      .ok (⟨(encodeMessage m).length, m⟩, 4 + (encodeMessage m).length) := by
  have hmod : (encodeMessage m).length % 2 ^ 32 = (encodeMessage m).length :=
    Nat.mod_eq_of_lt hlen
  have hdec : decodeMessage (encodeMessage m) = .ok (m, []) := by
    have := decodeMessage_encodeMessage m [] hwf hlen
    simpa using this
  simp only [Frame.serialize, hmod, be4, List.cons_append, List.nil_append,
    Frame.deserialize]
  have hL : (encodeMessage m).length / 2 ^ 24 % 256 * 2 ^ 24 +
      (encodeMessage m).length / 2 ^ 16 % 256 * 2 ^ 16 +
      (encodeMessage m).length / 2 ^ 8 % 256 * 2 ^ 8 +
      (encodeMessage m).length % 256 = (encodeMessage m).length := by
    omega
  rw [hL]
  rw [if_neg (by omega)]
  rw [List.take_of_length_le (le_refl _), hdec]

/-! ## FrameReader (`src/utils/frame_reader.rs`) -/

/-- Result of one `FrameReader::try_read_frame` call. -/
inductive TryRes where
  | needMore
  | gotFrame (f : Frame)
  | failed (e : String)
deriving DecidableEq

/-- `FrameReader::try_read_frame` as a function from the buffer to the
result and the new buffer: fewer than 4 buffered bytes or an incomplete
payload yield nothing and keep the buffer; a complete frame region is
deserialized and its `4 + length` bytes drained; a deserialization failure
returns the error and leaves the buffer untouched. -/
def tryReadFrame (b : List Nat) : TryRes × List Nat :=
  match b with
  | b0 :: b1 :: b2 :: b3 :: rest =>
    let length := b0 * 2 ^ 24 + b1 * 2 ^ 16 + b2 * 2 ^ 8 + b3
    if rest.length < length then (.needMore, b)
    else
      match Frame.deserialize (b0 :: b1 :: b2 :: b3 :: rest.take length) with
      | .ok (f, _) => (.gotFrame f, rest.drop length)
      | .error e => (.failed ("Frame deserialization error: " ++ e), b)
  | _ => (.needMore, b)

theorem tryReadFrame_gotFrame_length {b b' : List Nat} {f : Frame}
    (h : tryReadFrame b = (.gotFrame f, b')) : b'.length < b.length := by
  cases b with
  | nil => simp [tryReadFrame] at h
  | cons b0 t0 =>
  cases t0 with
  | nil => simp [tryReadFrame] at h
  | cons b1 t1 =>
  cases t1 with
  | nil => simp [tryReadFrame] at h
  | cons b2 t2 =>
  cases t2 with
  | nil => simp [tryReadFrame] at h
  | cons b3 rest =>
  simp only [tryReadFrame] at h
  split at h
  · simp at h
  · split at h
    · simp only [Prod.mk.injEq, TryRes.gotFrame.injEq] at h
      rw [← h.2]
      simp only [List.length_drop, List.length_cons]
      omega
    · simp at h

/-- The drain loop run after one `feed_data`, fuel-structured: repeatedly
call `try_read_frame`, collecting frames, stopping at `needMore` or at an
error (the read loops call `try_read_frame().unwrap_or(None)`, so an
error also ends the drain).  Each drained frame removes ≥ 4 bytes, so a
fuel of the buffer length always suffices. -/
def drainFramesFuel : Nat → List Nat → List Frame × List Nat
  | 0, b => ([], b)
  | fuel + 1, b =>
    match tryReadFrame b with
    | (.gotFrame f, b') =>
      ((f :: (drainFramesFuel fuel b').1), (drainFramesFuel fuel b').2)
    | (.needMore, _) => ([], b)
    | (.failed _, _) => ([], b)

/-- The drain loop run after one `feed_data`. -/
def drainFrames (b : List Nat) : List Frame × List Nat :=
  drainFramesFuel b.length b

theorem drainFramesFuel_congr :
    ∀ (n m : Nat) (b : List Nat), b.length ≤ n → b.length ≤ m →
      drainFramesFuel n b = drainFramesFuel m b := by
  intro n
  induction n with
  | zero =>
    intro m b hn _
    have hb : b = [] := List.length_eq_zero.mp (Nat.le_zero.mp hn)
    subst hb
    cases m with
    | zero => rfl
    | succ m => rfl
  | succ n ih =>
    intro m b hn hm
    cases m with
    | zero =>
      have hb : b = [] := List.length_eq_zero.mp (Nat.le_zero.mp hm)
      subst hb
      rfl
    | succ m =>
      simp only [drainFramesFuel]
      rcases h : tryReadFrame b with ⟨res, b2⟩
      cases res with
      | needMore => rfl
      | failed e => rfl
      | gotFrame f =>
        have hlt : b2.length < b.length := tryReadFrame_gotFrame_length h
        dsimp only
        rw [ih m b2 (by omega) (by omega)]

theorem drainFrames_of_gotFrame {b b' : List Nat} {f : Frame}
    (h : tryReadFrame b = (.gotFrame f, b')) :
    drainFrames b = ((f :: (drainFrames b').1), (drainFrames b').2) := by
  have hlt := tryReadFrame_gotFrame_length h
  unfold drainFrames
  obtain ⟨n, hn⟩ : ∃ n, b.length = n + 1 := ⟨b.length - 1, by omega⟩
  rw [hn]
  simp only [drainFramesFuel, h]
  rw [drainFramesFuel_congr n b'.length b' (by omega) le_rfl]

theorem drainFrames_of_needMore {b b2 : List Nat}
    (h : tryReadFrame b = (.needMore, b2)) : drainFrames b = ([], b) := by
  unfold drainFrames
  cases hl : b.length with
  | zero => rfl
  | succ n => simp only [drainFramesFuel, h]

theorem drainFrames_of_failed {b b2 : List Nat} {e : String}
    (h : tryReadFrame b = (.failed e, b2)) : drainFrames b = ([], b) := by
  unfold drainFrames
  cases hl : b.length with
  | zero => rfl
  | succ n => simp only [drainFramesFuel, h]

/-- Locality of the frame parser: a complete frame at the front of the
buffer is parsed the same way whatever bytes follow. -/
theorem tryReadFrame_append {b b' : List Nat} {f : Frame}
    (h : tryReadFrame b = (.gotFrame f, b')) (c : List Nat) :
    tryReadFrame (b ++ c) = (.gotFrame f, b' ++ c) := by
  cases b with
  | nil => simp [tryReadFrame] at h
  | cons b0 t0 =>
  cases t0 with
  | nil => simp [tryReadFrame] at h
  | cons b1 t1 =>
  cases t1 with
  | nil => simp [tryReadFrame] at h
  | cons b2 t2 =>
  cases t2 with
  | nil => simp [tryReadFrame] at h
  | cons b3 rest =>
  simp only [tryReadFrame] at h
  split at h
  · simp at h
  · rename_i hlen
    simp only [List.cons_append, tryReadFrame, List.length_append]
    rw [if_neg (by omega)]
    rw [List.take_append_of_le_length (by omega)]
    split at h
    · rename_i f1 rest1 hdes
      simp only [Prod.mk.injEq, TryRes.gotFrame.injEq] at h
      rw [h.1, List.drop_append_of_le_length (by omega), h.2]
    · simp at h

/-- Draining `b ++ c` drains `b` first and then the residue of `b`
followed by `c`. -/
theorem drainFrames_append (b c : List Nat) :
    drainFrames (b ++ c) =
      ((drainFrames b).1 ++ (drainFrames ((drainFrames b).2 ++ c)).1,
        (drainFrames ((drainFrames b).2 ++ c)).2) := by
  suffices H : ∀ (n : Nat) (b : List Nat), b.length ≤ n → ∀ c : List Nat,
      drainFrames (b ++ c) =
        ((drainFrames b).1 ++ (drainFrames ((drainFrames b).2 ++ c)).1,
          (drainFrames ((drainFrames b).2 ++ c)).2) by
    exact H b.length b le_rfl c
  intro n
  induction n with
  | zero =>
    intro b hb c
    have hnil : b = [] := List.length_eq_zero.mp (Nat.le_zero.mp hb)
    subst hnil
    have h0 : drainFrames ([] : List Nat) = ([], []) :=
      drainFrames_of_needMore rfl
    simp [h0]
  | succ n ih =>
    intro b hb c
    rcases h : tryReadFrame b with ⟨res, b2⟩
    cases res with
    | needMore =>
      rw [drainFrames_of_needMore h]
      simp
    | failed e =>
      rw [drainFrames_of_failed h]
      simp
    | gotFrame f =>
      have hlt : b2.length < b.length := tryReadFrame_gotFrame_length h
      rw [drainFrames_of_gotFrame h,
        drainFrames_of_gotFrame (tryReadFrame_append h c),
        ih b2 (by omega) c]
      simp

/-- The read loop over a sequence of reads: feed each chunk into the
buffer (`feed_data`), then drain complete frames; collect all frames in
order. -/
def processChunks (b : List Nat) (chunks : List (List Nat)) : List Frame :=
  match chunks with
  | [] => []
  | c :: cs =>
    (drainFrames (b ++ c)).1 ++ processChunks (drainFrames (b ++ c)).2 cs

theorem processChunks_drain (chunks : List (List Nat)) :
    ∀ b : List Nat,
      (drainFrames b).1 ++ processChunks (drainFrames b).2 chunks =
        (drainFrames (b ++ chunks.flatten)).1 := by
  induction chunks with
  | nil =>
    intro b
    simp [processChunks]
  | cons c cs ih =>
    intro b
    simp only [processChunks, List.flatten_cons]
    rw [ih ((drainFrames b).2 ++ c)]
    rw [drainFrames_append b (c ++ cs.flatten)]
    simp [List.append_assoc]

/-! ## Association-list model of the locked `HashMap` registries -/

/-- `HashMap::get`. -/
def lookupKey {K V : Type} [DecidableEq K] (k : K) : List (K × V) → Option V
  | [] => none
  | (k', v) :: rest => if k' = k then some v else lookupKey k rest

/-- `HashMap::remove`. -/
def eraseKey {K V : Type} [DecidableEq K] (k : K) (l : List (K × V)) :
    List (K × V) :=
  l.filter (fun p => decide (p.1 ≠ k))

/-- `HashMap::insert` (replacing any previous binding of the key). -/
def insertKey {K V : Type} [DecidableEq K] (k : K) (v : V) (l : List (K × V)) :
    List (K × V) :=
  (k, v) :: eraseKey k l

theorem lookupKey_eraseKey_self {K V : Type} [DecidableEq K] (k : K)
    (l : List (K × V)) : lookupKey k (eraseKey k l) = none := by
  induction l with
  | nil => rfl
  | cons p rest ih =>
    by_cases h : p.1 = k
    · simpa [eraseKey, h] using ih
    · simpa [eraseKey, lookupKey, h] using ih

/-! ## Server data model (`src/server/mod.rs`) -/

/-- `ProxyInfo`: the service a proxy id points at. -/
structure ProxyInfo where
  local_ip : List Nat
  local_port : Nat
  remote_port : Nat
deriving DecidableEq

/-- `ClientConnection` (channel and crypto handles are not part of the
registry state the claims speak about). -/
structure ClientConnection where
  client_id : List Nat
  proxies : List (List Nat × ProxyInfo)
deriving DecidableEq

/-- `ProxyListenerInfo` (the OS listener and cancel channel are handles;
the registry data is the owner and the proxy id). -/
structure ProxyListenerInfo where
  client_id : List Nat
  proxy_id : List Nat
deriving DecidableEq

/-- `ProxyConnectionInfo` (the data channel is a handle; the registry data
is the owning client). -/
structure ProxyConnectionInfo where
  client_id : List Nat
deriving DecidableEq

/-- The three shared registries of `Server`. -/
structure ServerState where
  clients : List (List Nat × ClientConnection)
  proxy_listeners : List (Nat × ProxyListenerInfo)
  proxy_connections : List (List Nat × ProxyConnectionInfo)
deriving DecidableEq

/-- Bytes of the decimal digits of `n` (Rust `format!` of an integer). -/
def natDecimalBytes (n : Nat) : List Nat := (Nat.toDigits 10 n).map Char.toNat

/-- Bytes of `format!("Port {} already in use by another client", port)`. -/
def portInUseError (port : Nat) : List Nat :=
  [80, 111, 114, 116, 32] ++ natDecimalBytes port ++
  [32, 97, 108, 114, 101, 97, 100, 121, 32, 105, 110, 32, 117, 115, 101,
   32, 98, 121, 32, 97, 110, 111, 116, 104, 101, 114, 32, 99, 108, 105,
   101, 110, 116]

/-- Bytes of `format!("Failed to bind port {}: {}", port, e)`. -/
def bindFailedError (port : Nat) (osError : List Nat) : List Nat :=
  [70, 97, 105, 108, 101, 100, 32, 116, 111, 32, 98, 105, 110, 100, 32,
   112, 111, 114, 116, 32] ++ natDecimalBytes port ++ [58, 32] ++ osError

/-- The `Message::ProxyConfig` arm of `Server::handle_client_message`.
`freshProxyId` stands for the freshly minted `Uuid::new_v4`;
`bindResult` is the outcome of `TcpListener::bind` (`none` = bound,
`some e` = failed with OS error bytes `e`), consulted only when no
listener exists on the port.  Returns the new registries and the list of
messages pushed into the requesting client's outbound channel, in order:
the handler first records the proxy and replies `success=true`
unconditionally (when the client is registered), and only then examines
the port registry. -/
def handleProxyConfig (st : ServerState) (client_id : List Nat)
    (local_ip : List Nat) (local_port remote_port : Nat)
    (freshProxyId : List Nat) (bindResult : Option (List Nat)) :
    ServerState × List Message :=
  let step1 :=
    match lookupKey client_id st.clients with
    | some client =>
      (insertKey client_id
        { client with
          proxies := insertKey freshProxyId
            ⟨local_ip, local_port, remote_port⟩ client.proxies } st.clients,
       [Message.ProxyConfigResponse true (some freshProxyId) none])
    | none => (st.clients, [])
  let clients1 := step1.1
  let sent1 := step1.2
  match lookupKey remote_port st.proxy_listeners with
  | none =>
    match bindResult with
    | none =>
      ({ st with
          clients := clients1,
          proxy_listeners :=
            insertKey remote_port ⟨client_id, freshProxyId⟩ st.proxy_listeners },
       sent1)
    | some osError =>
      ({ st with clients := clients1 },
       sent1 ++
         (match lookupKey client_id clients1 with
          | some _ =>
            [Message.ProxyConfigResponse false none
              (some (bindFailedError remote_port osError))]
          | none => []))
  | some existing =>
    if existing.client_id ≠ client_id then
      ({ st with clients := clients1 },
       sent1 ++
         (match lookupKey client_id clients1 with
          | some _ =>
            [Message.ProxyConfigResponse false none
              (some (portInUseError remote_port))]
          | none => []))
    else
      ({ st with clients := clients1 }, sent1)

/-- `Server::cleanup_client`: remove the client from the client registry —
returning unchanged if it was already absent — then drop every proxy
listener it owns and every active proxy connection it owns. -/
def cleanup_client (client_id : List Nat) (st : ServerState) : ServerState :=
  match lookupKey client_id st.clients with
  | none => st
  | some _ =>
    { clients := eraseKey client_id st.clients,
      proxy_listeners :=
        st.proxy_listeners.filter (fun p => decide (p.2.client_id ≠ client_id)),
      proxy_connections :=
        st.proxy_connections.filter (fun p => decide (p.2.client_id ≠ client_id)) }

/-! ## Client-side dispatch (`src/client.rs`) -/

/-- `ServiceConfig` from the client configuration. -/
structure ServiceConfig where
  name : List Nat
  local_ip : List Nat
  local_port : Nat
  remote_port : Nat
deriving DecidableEq

/-- The `Message::NewConnection` arm of `Client::handle_server_message`:
the client takes `service_configs.first()` and dials
`format!("{}:{}", sc.local_ip, sc.local_port)`; with an empty service
list it dials nothing.  Returns the `(local_ip, local_port)` it connects
to.  The `proxy_id` and `connection_id` of the message are parameters to
show the dial target ignores them. -/
def clientDialTarget (service_configs : List ServiceConfig)
    (proxy_id connection_id : List Nat) : Option (List Nat × Nat) :=
  match service_configs.head? with
  | some sc => some (sc.local_ip, sc.local_port)
  | none => none

/-! ## Server auth-frame read (`Server::handle_client`, lines 95–109) -/

/-- The authentication-read phase of `Server::handle_client`: one
`stream.read` (under the 30 s timeout) into a fresh `FrameReader`, then a
single `try_read_frame`.  `reads` is the sequence of byte chunks
successive reads would deliver; the code consumes only the first.  An
empty sequence (timeout with nothing delivered is out of the untimed
model; EOF is `Ok(0)`) or an empty first read aborts; a first read
without a complete frame aborts with "Incomplete auth frame". -/
def serverReadAuthFrame (reads : List (List Nat)) : Except String Frame :=
  match reads with
  | [] => .error "Connection closed during auth"
  | first :: _ =>
    if first.length = 0 then .error "Connection closed during auth"
    else
      match tryReadFrame first with
      | (.gotFrame f, _) => .ok f
      | (.failed e, _) => .error e
      | (.needMore, _) => .error "Incomplete auth frame"

/-! ## Crypto helpers (`src/utils/crypto.rs`): SHA-256, HMAC, HKDF -/

/-- Right rotation of a 32-bit word. -/
def rotr32 (n w : Nat) : Nat := (w / 2 ^ n + w % 2 ^ n * 2 ^ (32 - n)) % 2 ^ 32

/-- Bitwise complement of a 32-bit word. -/
def not32 (w : Nat) : Nat := w ^^^ (2 ^ 32 - 1)

/-- SHA-256 `Ch`. -/
def sha256Ch (e f g : Nat) : Nat := (e &&& f) ^^^ (not32 e &&& g)

/-- SHA-256 `Maj`. -/
def sha256Maj (a b c : Nat) : Nat :=
  Nat.xor (Nat.xor (Nat.land a b) (Nat.land a c)) (Nat.land b c)

/-- SHA-256 `Σ0`. -/
def bigSigma0 (w : Nat) : Nat := rotr32 2 w ^^^ rotr32 13 w ^^^ rotr32 22 w

/-- SHA-256 `Σ1`. -/
def bigSigma1 (w : Nat) : Nat := rotr32 6 w ^^^ rotr32 11 w ^^^ rotr32 25 w

/-- SHA-256 `σ0`. -/
def smallSigma0 (w : Nat) : Nat := rotr32 7 w ^^^ rotr32 18 w ^^^ (w / 2 ^ 3)

/-- SHA-256 `σ1`. -/
def smallSigma1 (w : Nat) : Nat := rotr32 17 w ^^^ rotr32 19 w ^^^ (w / 2 ^ 10)

/-- The 64 SHA-256 round constants (fractional cube roots of the first 64
primes, as 32-bit words written in decimal). -/
def sha256K : List Nat :=
  [1116352408, 1899447441, 3049323471, 3921009573, 961987163,
   1508970993, 2453635748, 2870763221, 3624381080, 310598401,
   607225278, 1426881987, 1925078388, 2162078206, 2614888103,
   3248222580, 3835390401, 4022224774, 264347078, 604807628,
   770255983, 1249150122, 1555081692, 1996064986, 2554220882,
   2821834349, 2952996808, 3210313671, 3336571891, 3584528711,
   113926993, 338241895, 666307205, 773529912, 1294757372,
   1396182291, 1695183700, 1986661051, 2177026350, 2456956037,
   2730485921, 2820302411, 3259730800, 3345764771, 3516065817,
   3600352804, 4094571909, 275423344, 430227734, 506948616,
   659060556, 883997877, 958139571, 1322822218, 1537002063,
   1747873779, 1955562222, 2024104815, 2227730452, 2361852424,
   2428436474, 2756734187, 3204031479, 3329325298]

/-- The working state of the SHA-256 compression function. -/
structure Hash8 where
  a : Nat
  b : Nat
  c : Nat
  d : Nat
  e : Nat
  f : Nat
  g : Nat
  h : Nat
deriving DecidableEq

/-- The SHA-256 initial hash value (fractional square roots of the first
8 primes, as 32-bit words written in decimal). -/
def sha256H0 : Hash8 :=
  ⟨1779033703, 3144134277, 1013904242, 2773480762,
   1359893119, 2600822924, 528734635, 1541459225⟩

/-- Big-endian 64-bit byte string (the padded bit-length field). -/
def be8 (n : Nat) : List Nat :=
  [n / 2 ^ 56 % 256, n / 2 ^ 48 % 256, n / 2 ^ 40 % 256, n / 2 ^ 32 % 256,
   n / 2 ^ 24 % 256, n / 2 ^ 16 % 256, n / 2 ^ 8 % 256, n % 256]

/-- SHA-256 padding: append `0x80`, zeros to 56 mod 64, then the 64-bit
big-endian bit length. -/
def sha256Pad (msg : List Nat) : List Nat :=
  msg ++ [0x80] ++ List.replicate ((119 - msg.length % 64) % 64) 0 ++
    be8 (8 * msg.length)

/-- Splits a byte string into 64-byte blocks (fuel-structured so that the
kernel can evaluate it; the fuel is the length, consumed at ≥ 1 per block). -/
def chunk64Fuel : Nat → List Nat → List (List Nat)
  | 0, _ => []
  | _, [] => []
  | fuel + 1, x :: xs =>
    ((x :: xs).take 64) :: chunk64Fuel fuel ((x :: xs).drop 64)

/-- Splits a byte string into 64-byte blocks. -/
def chunk64 (l : List Nat) : List (List Nat) := chunk64Fuel l.length l

/-- Big-endian 32-bit words of a block. -/
def toWords : List Nat → List Nat
  | b0 :: b1 :: b2 :: b3 :: rest =>
    (b0 * 2 ^ 24 + b1 * 2 ^ 16 + b2 * 2 ^ 8 + b3) :: toWords rest
  | _ => []

/-- The next word of the SHA-256 message schedule, from the words so far. -/
def nextScheduleWord (ws : List Nat) : Nat :=
  let n := ws.length
  (smallSigma1 (ws.getD (n - 2) 0) + ws.getD (n - 7) 0 +
    smallSigma0 (ws.getD (n - 15) 0) + ws.getD (n - 16) 0) % 2 ^ 32

/-- Extends the message schedule by `k` words. -/
def extendSchedule : Nat → List Nat → List Nat
  | 0, ws => ws
  | k + 1, ws => extendSchedule k (ws ++ [nextScheduleWord ws])

/-- One SHA-256 round, consuming one `(K, W)` pair. -/
def sha256Round (st : Hash8) (kw : Nat × Nat) : Hash8 :=
  let t1 := (st.h + bigSigma1 st.e + sha256Ch st.e st.f st.g + kw.1 + kw.2) % 2 ^ 32
  let t2 := (bigSigma0 st.a + sha256Maj st.a st.b st.c) % 2 ^ 32
  ⟨(t1 + t2) % 2 ^ 32, st.a, st.b, st.c, (st.d + t1) % 2 ^ 32, st.e, st.f, st.g⟩

/-- The SHA-256 compression function for one 64-byte block. -/
def compressBlock (st : Hash8) (block : List Nat) : Hash8 :=
  let ws := extendSchedule 48 (toWords block)
  let r := (sha256K.zip ws).foldl sha256Round st
  ⟨(st.a + r.a) % 2 ^ 32, (st.b + r.b) % 2 ^ 32, (st.c + r.c) % 2 ^ 32,
   (st.d + r.d) % 2 ^ 32, (st.e + r.e) % 2 ^ 32, (st.f + r.f) % 2 ^ 32,
   (st.g + r.g) % 2 ^ 32, (st.h + r.h) % 2 ^ 32⟩

/-- SHA-256 of a byte string, as a 32-byte string. -/
def sha256 (msg : List Nat) : List Nat :=
  let st := (chunk64 (sha256Pad msg)).foldl compressBlock sha256H0
  be4 st.a ++ be4 st.b ++ be4 st.c ++ be4 st.d ++
    be4 st.e ++ be4 st.f ++ be4 st.g ++ be4 st.h

/-- `sha256_with_salt` from `src/utils/crypto.rs`: SHA-256 of
`data || salt`. -/
def sha256_with_salt (data salt : List Nat) : List Nat := sha256 (data ++ salt)

/-- The fixed `MAGIC_SALT` bytes `".Kita_Ikuyo.^_^."`. -/
def MAGIC_SALT : List Nat :=
  [46, 75, 105, 116, 97, 95, 73, 107, 117, 121, 111, 46, 94, 95, 94, 46]

/-- HMAC-SHA256 (RFC 2104, block size 64). -/
def hmacSha256 (key msg : List Nat) : List Nat :=
  let k0 := if 64 < key.length then sha256 key else key
  let kpad := k0 ++ List.replicate (64 - k0.length) 0
  let ipadKey := kpad.map (fun x => x ^^^ 0x36)
  let opadKey := kpad.map (fun x => x ^^^ 0x5c)
  sha256 (opadKey ++ sha256 (ipadKey ++ msg))

/-- `CryptoContext::derive_session_key`: HKDF-SHA256 with absent (empty)
salt, IKM = token bytes, info = client id bytes, output length 32.
Extract is `PRK = HMAC(salt, IKM)`; with `L = 32` the expand phase is the
single block `T(1) = HMAC(PRK, info || 0x01)`. -/
def derive_session_key (token client_id : List Nat) : List Nat :=
  hmacSha256 (hmacSha256 [] token) (client_id ++ [1])

theorem sha256_length (msg : List Nat) : (sha256 msg).length = 32 := by
  simp [sha256, be4]

theorem hmacSha256_length (key msg : List Nat) :
    (hmacSha256 key msg).length = 32 := by
  simp [hmacSha256, sha256_length]

deriving instance DecidableEq for Except

/-! ## Helper lemmas for cleanup -/

theorem cleanup_client_absent {c : List Nat} {st : ServerState}
    (h : lookupKey c st.clients = none) : cleanup_client c st = st := by
  unfold cleanup_client
  rw [h]

theorem lookupKey_cleanup_client_self (c : List Nat) (st : ServerState) :
    lookupKey c (cleanup_client c st).clients = none := by
  unfold cleanup_client
  cases hcl : lookupKey c st.clients with
  | none => exact hcl
  | some cl => exact lookupKey_eraseKey_self c st.clients

/-! ## Claim theorems -/

/-- Claim C1 (code bug): on a `ProxyConfig` for a port owned by a
different client, the handler does send the `success=false` reply whose
error is `"Port N already in use by another client"`, but it has already
sent `success=true` with a fresh proxy id before consulting the port
registry, so the requesting client receives both.  Evaluated at the
failing input: clients `a` and `b` registered, port 28000 owned by `a`,
and `b` requesting remote port 28000. -/
theorem c1_port_conflict_also_sends_success :
    (handleProxyConfig
      ⟨[([97], ⟨[97], []⟩), ([98], ⟨[98], []⟩)],
       [(28000, ⟨[97], [111]⟩)], []⟩
      [98] [108] 19999 28000 [112] none).2 =
      [Message.ProxyConfigResponse true (some [112]) none,
       Message.ProxyConfigResponse false none (some (portInUseError 28000))] := by
  decide

/-- Claim C2: a `ProxyConfig` from the client that already owns the
requested remote port is answered with a single
`ProxyConfigResponse{success=true}` carrying the freshly generated proxy
id, and the port registry is left unchanged — no second listener, and the
stored entry (in particular its original proxy id) survives. -/
theorem c2_same_client_port_rerequest (st : ServerState)
    (cid ip pid : List Nat) (lp rp : Nat) (bindResult : Option (List Nat))
    (client : ClientConnection) (info : ProxyListenerInfo)
    (hc : lookupKey cid st.clients = some client)
    (hl : lookupKey rp st.proxy_listeners = some info)
    (hown : info.client_id = cid) :
    (handleProxyConfig st cid ip lp rp pid bindResult).2 =
      [Message.ProxyConfigResponse true (some pid) none] ∧
    (handleProxyConfig st cid ip lp rp pid bindResult).1.proxy_listeners =
      st.proxy_listeners ∧
    lookupKey rp (handleProxyConfig st cid ip lp rp pid bindResult).1.proxy_listeners =
      some info := by
  simp [handleProxyConfig, hc, hl, hown]

/-- Witness for C2 at a concrete state: client `a` owns port 28000 with
proxy id `o`; a re-request mints proxy id `p` and leaves the registry
entry intact. -/
theorem c2_same_client_port_rerequest_witness :
    (handleProxyConfig
        ⟨[([97], ⟨[97], []⟩)], [(28000, ⟨[97], [111]⟩)], []⟩
        [97] [108] 19999 28000 [112] none).2 =
      [Message.ProxyConfigResponse true (some [112]) none] ∧
    (handleProxyConfig
        ⟨[([97], ⟨[97], []⟩)], [(28000, ⟨[97], [111]⟩)], []⟩
        [97] [108] 19999 28000 [112] none).1.proxy_listeners =
      [(28000, ⟨[97], [111]⟩)] ∧
    lookupKey 28000 (handleProxyConfig
        ⟨[([97], ⟨[97], []⟩)], [(28000, ⟨[97], [111]⟩)], []⟩
        [97] [108] 19999 28000 [112] none).1.proxy_listeners =
      some ⟨[97], [111]⟩ :=
  c2_same_client_port_rerequest
    ⟨[([97], ⟨[97], []⟩)], [(28000, ⟨[97], [111]⟩)], []⟩
    [97] [108] [112] 19999 28000 none ⟨[97], []⟩ ⟨[97], [111]⟩
    (by decide) (by decide) (by decide)

/-- Claim C3: on `NewConnection`, a client with a non-empty service list
dials the `local_ip:local_port` of the first configured service, for any
`proxy_id` and `connection_id` (the dial target does not depend on them). -/
theorem c3_dial_target_is_first_service (cfgs : List ServiceConfig)
    (sc : ServiceConfig) (rest : List ServiceConfig)
    (pid cid pid' cid' : List Nat) (hne : cfgs = sc :: rest) :
    clientDialTarget cfgs pid cid = some (sc.local_ip, sc.local_port) ∧
    clientDialTarget cfgs pid' cid' = clientDialTarget cfgs pid cid := by
  subst hne
  simp [clientDialTarget]

/-- Witness for C3 with two services configured and two different proxy
ids: the dial target is the first service either way. -/
theorem c3_dial_target_is_first_service_witness :
    clientDialTarget
        [⟨[115], [108], 19999, 28000⟩, ⟨[116], [109], 20000, 28001⟩]
        [112] [99] = some ([108], 19999) ∧
    clientDialTarget
        [⟨[115], [108], 19999, 28000⟩, ⟨[116], [109], 20000, 28001⟩]
        [113] [100] =
      clientDialTarget
        [⟨[115], [108], 19999, 28000⟩, ⟨[116], [109], 20000, 28001⟩]
        [112] [99] :=
  c3_dial_target_is_first_service
    [⟨[115], [108], 19999, 28000⟩, ⟨[116], [109], 20000, 28001⟩]
    ⟨[115], [108], 19999, 28000⟩ [⟨[116], [109], 20000, 28001⟩]
    [112] [99] [113] [100] rfl

/-- Claim C5: after `cleanup_client c` returns, no registry references
`c`: `c` is gone from the client registry, no port-registry entry is
owned by `c`, and no active-connection entry belongs to `c`.  The
hypotheses are the server's registry invariants I2/I3 (every listener and
connection owner is a registered client), needed only for the
early-return path. -/
theorem c5_cleanup_removes_all_references (st : ServerState) (c : List Nat)
    (hL : ∀ p ∈ st.proxy_listeners,
      (lookupKey p.2.client_id st.clients).isSome = true)
    (hC : ∀ p ∈ st.proxy_connections,
      (lookupKey p.2.client_id st.clients).isSome = true) :
    lookupKey c (cleanup_client c st).clients = none ∧
    (∀ p ∈ (cleanup_client c st).proxy_listeners, p.2.client_id ≠ c) ∧
    (∀ p ∈ (cleanup_client c st).proxy_connections, p.2.client_id ≠ c) := by
  unfold cleanup_client
  cases hcl : lookupKey c st.clients with
  | none =>
    refine ⟨hcl, ?_, ?_⟩
    · intro p hp hep
      have := hL p hp
      rw [hep, hcl] at this
      simp at this
    · intro p hp hep
      have := hC p hp
      rw [hep, hcl] at this
      simp at this
  | some cl =>
    refine ⟨lookupKey_eraseKey_self c st.clients, ?_, ?_⟩
    · intro p hp
      simpa using (List.mem_filter.mp hp).2
    · intro p hp
      simpa using (List.mem_filter.mp hp).2

/-- Witness for C5 at a concrete state satisfying the invariants: client
`a` with one listener and one connection, cleaned up. -/
theorem c5_cleanup_removes_all_references_witness :
    lookupKey [97] (cleanup_client [97]
      ⟨[([97], ⟨[97], []⟩)], [(28000, ⟨[97], [111]⟩)],
       [([99], ⟨[97]⟩)]⟩).clients = none ∧
    (∀ p ∈ (cleanup_client [97]
      ⟨[([97], ⟨[97], []⟩)], [(28000, ⟨[97], [111]⟩)],
       [([99], ⟨[97]⟩)]⟩).proxy_listeners, p.2.client_id ≠ [97]) ∧
    (∀ p ∈ (cleanup_client [97]
      ⟨[([97], ⟨[97], []⟩)], [(28000, ⟨[97], [111]⟩)],
       [([99], ⟨[97]⟩)]⟩).proxy_connections, p.2.client_id ≠ [97]) :=
  c5_cleanup_removes_all_references
    ⟨[([97], ⟨[97], []⟩)], [(28000, ⟨[97], [111]⟩)], [([99], ⟨[97]⟩)]⟩
    [97] (by decide) (by decide)

/-- Claim C6: client teardown is idempotent — running `cleanup_client`
for the same id twice equals running it once, and the second run hits the
early return because the id is already absent from the client registry. -/
theorem c6_cleanup_idempotent (st : ServerState) (c : List Nat) :
    cleanup_client c (cleanup_client c st) = cleanup_client c st ∧
    lookupKey c (cleanup_client c st).clients = none :=
  ⟨cleanup_client_absent (lookupKey_cleanup_client_self c st),
   lookupKey_cleanup_client_self c st⟩

/-- Claim C4 counterexample: the server's auth phase performs a single
read, so a delivery whose concatenation is exactly one complete valid
`Auth` frame, chunked into two reads, is rejected with "Incomplete auth
frame" — while the same bytes in one read are accepted.  This refutes
"under any chunking of reads ... the server obtains and processes that
Auth frame". -/
theorem c4_split_auth_frame_rejected :
    [[0], [0, 0, 4, 0, 0, 0, 0]].flatten =
      Frame.serialize (Message.Auth [] [] none) ∧
    serverReadAuthFrame [[0], [0, 0, 4, 0, 0, 0, 0]] =
      .error "Incomplete auth frame" ∧
    serverReadAuthFrame [[0, 0, 0, 4, 0, 0, 0, 0]] =
      .ok ⟨4, Message.Auth [] [] none⟩ := by
  decide

/-- Claim C4 as amended: the server reads once (under the 30-second
timeout); it obtains and processes the Auth frame exactly when that first
read already contains one complete frame, and an EOF (empty read or no
delivery) or a first read without a complete frame aborts with an auth
failure. -/
theorem c4_first_read_must_contain_frame (first : List Nat)
    (more : List (List Nat)) (f : Frame) (rest : List Nat)
    (h : tryReadFrame first = (.gotFrame f, rest)) :
    serverReadAuthFrame (first :: more) = .ok f ∧
    serverReadAuthFrame [] = .error "Connection closed during auth" ∧
    serverReadAuthFrame ([] :: more) = .error "Connection closed during auth" := by
  have hne : first.length ≠ 0 := by
    have := tryReadFrame_gotFrame_length h
    omega
  refine ⟨?_, rfl, rfl⟩
  simp only [serverReadAuthFrame, if_neg hne, h]

/-- Witness for the amended C4: a complete Auth frame in the first read is
accepted. -/
theorem c4_first_read_must_contain_frame_witness :
    serverReadAuthFrame [[0, 0, 0, 4, 0, 0, 0, 0]] =
      .ok ⟨4, Message.Auth [] [] none⟩ ∧
    serverReadAuthFrame [] = .error "Connection closed during auth" ∧
    serverReadAuthFrame ([] :: [[0, 0, 4, 0, 0, 0, 0]]) =
      .error "Connection closed during auth" :=
  c4_first_read_must_contain_frame [0, 0, 0, 4, 0, 0, 0, 0]
    [] ⟨4, Message.Auth [] [] none⟩ [] (by decide)

/-- Claim C7 as amended: for every protocol message (integer fields in
their Rust ranges) whose encoded payload is shorter than `2 ^ 32` bytes,
deserializing the serialization succeeds, yields the message again, and
consumes exactly the 4-byte length prefix plus the payload. -/
theorem c7_frame_roundtrip (m : Message) (hwf : m.wfb = true)
    (hlen : (encodeMessage m).length < 2 ^ 32) :
    Frame.deserialize (Frame.serialize m) =
      .ok (⟨(encodeMessage m).length, m⟩, 4 + (encodeMessage m).length) :=
  deserialize_serialize m hwf hlen

/-- Witness for C7 at a concrete message. -/
theorem c7_frame_roundtrip_witness :
    Frame.deserialize (Frame.serialize (Message.Heartbeat 42)) =
      .ok (⟨(encodeMessage (Message.Heartbeat 42)).length, Message.Heartbeat 42⟩,
        4 + (encodeMessage (Message.Heartbeat 42)).length) :=
  c7_frame_roundtrip (Message.Heartbeat 42) (by decide) (by decide)

/-- Claim C7 counterexample: `Frame::serialize` casts the payload length
to `u32`, so a `Data` message with a `2 ^ 32`-byte payload gets length
prefix 11 and its deserialization fails — the unrestricted round-trip
claim is false. -/
theorem c7_giant_payload_breaks_roundtrip :
    (Frame.deserialize (Frame.serialize
      (Message.Data [] (List.replicate (2 ^ 32) 0)))).isOk = false := by
  have henc : encodeMessage (Message.Data [] (List.replicate (2 ^ 32) 0)) =
      [8, 0, 253, 0, 0, 0, 0, 1, 0, 0, 0] ++ List.replicate (2 ^ 32) 0 := by
    simp only [encodeMessage, encodeBytes, List.length_replicate, List.length_nil]
    rw [show encodeVarint 8 = [8] from rfl, show encodeVarint 0 = [0] from rfl,
      show encodeVarint (2 ^ 32) = [253, 0, 0, 0, 0, 1, 0, 0, 0] from by decide]
    simp only [List.nil_append, List.append_nil, List.cons_append,
      List.append_assoc]
  have hlist : (([8, 0, 253, 0, 0, 0, 0, 1, 0, 0, 0] : List Nat) ++
      List.replicate (2 ^ 32) 0).length = 2 ^ 32 + 11 := by
    rw [List.length_append, List.length_replicate]
    rfl
  have hlen : (encodeMessage (Message.Data [] (List.replicate (2 ^ 32) 0))).length
      = 2 ^ 32 + 11 := by
    rw [henc]
    exact hlist
  have hmod : (encodeMessage (Message.Data [] (List.replicate (2 ^ 32) 0))).length
      % 2 ^ 32 = 11 := by
    rw [hlen]
    omega
  have hser : Frame.serialize (Message.Data [] (List.replicate (2 ^ 32) 0)) =
      0 :: 0 :: 0 :: 11 ::
        ([8, 0, 253, 0, 0, 0, 0, 1, 0, 0, 0] ++ List.replicate (2 ^ 32) 0) := by
    unfold Frame.serialize
    rw [hmod, show be4 11 = [0, 0, 0, 11] from rfl, henc]
    simp only [List.cons_append, List.nil_append]
  rw [hser]
  simp only [Frame.deserialize]
  rw [show (0 : Nat) * 2 ^ 24 + 0 * 2 ^ 16 + 0 * 2 ^ 8 + 11 = 11 by norm_num]
  rw [if_neg (by
    rw [hlist]
    omega)]
  rw [List.take_append_of_le_length (by decide)]
  rw [show List.take 11 [8, 0, 253, 0, 0, 0, 0, 1, 0, 0, 0] =
    [8, 0, 253, 0, 0, 0, 0, 1, 0, 0, 0] from rfl]
  rw [show decodeMessage [8, 0, 253, 0, 0, 0, 0, 1, 0, 0, 0] =
    .error "Insufficient bytes for byte string" from by decide]
  rfl

theorem flatten_map_singleton (l : List Nat) :
    (l.map (fun x => [x])).flatten = l := by
  induction l with
  | nil => rfl
  | cons x xs ih => simp [ih]

theorem tryReadFrame_short {b : List Nat} (h : b.length < 4) :
    tryReadFrame b = (.needMore, b) := by
  cases b with
  | nil => rfl
  | cons b0 t0 =>
  cases t0 with
  | nil => rfl
  | cons b1 t1 =>
  cases t1 with
  | nil => rfl
  | cons b2 t2 =>
  cases t2 with
  | nil => rfl
  | cons b3 rest =>
    simp only [List.length_cons] at h
    omega

theorem processChunks_nil_start (chunks : List (List Nat)) :
    processChunks [] chunks = (drainFrames chunks.flatten).1 := by
  have h := processChunks_drain chunks []
  rw [show drainFrames [] = (([] : List Frame), ([] : List Nat)) from rfl] at h
  simpa using h

theorem serialize_cons (m : Message)
    (hlen : (encodeMessage m).length < 2 ^ 32) :
    Frame.serialize m =
      (encodeMessage m).length / 2 ^ 24 % 256 ::
      (encodeMessage m).length / 2 ^ 16 % 256 ::
      (encodeMessage m).length / 2 ^ 8 % 256 ::
      (encodeMessage m).length % 256 :: encodeMessage m := by
  simp only [Frame.serialize, Nat.mod_eq_of_lt hlen, be4, List.cons_append,
    List.nil_append]

theorem serialize_length (m : Message)
    (hlen : (encodeMessage m).length < 2 ^ 32) :
    (Frame.serialize m).length = 4 + (encodeMessage m).length := by
  rw [serialize_cons m hlen]
  simp only [List.length_cons]
  omega

theorem tryReadFrame_serialize (m : Message) (hwf : m.wfb = true)
    (hlen : (encodeMessage m).length < 2 ^ 32) :
    tryReadFrame (Frame.serialize m) =
      (.gotFrame ⟨(encodeMessage m).length, m⟩, []) := by
  rw [serialize_cons m hlen]
  simp only [tryReadFrame]
  have hL : (encodeMessage m).length / 2 ^ 24 % 256 * 2 ^ 24 +
      (encodeMessage m).length / 2 ^ 16 % 256 * 2 ^ 16 +
      (encodeMessage m).length / 2 ^ 8 % 256 * 2 ^ 8 +
      (encodeMessage m).length % 256 = (encodeMessage m).length := by
    omega
  rw [hL, if_neg (by omega), List.take_of_length_le le_rfl,
    ← serialize_cons m hlen, deserialize_serialize m hwf hlen]
  rw [List.drop_length]

theorem drainFrames_serialize (m : Message) (hwf : m.wfb = true)
    (hlen : (encodeMessage m).length < 2 ^ 32) :
    drainFrames (Frame.serialize m) =
      ([⟨(encodeMessage m).length, m⟩], []) := by
  rw [drainFrames_of_gotFrame (tryReadFrame_serialize m hwf hlen)]
  rfl

theorem drainFrames_serialize_take (m : Message) (k : Nat)
    (hlen : (encodeMessage m).length < 2 ^ 32)
    (hk : k < (Frame.serialize m).length) :
    (drainFrames ((Frame.serialize m).take k)).1 = [] := by
  rw [serialize_length m hlen] at hk
  by_cases h4 : k < 4
  · have hshort : ((Frame.serialize m).take k).length < 4 := by
      rw [List.length_take]
      omega
    rw [drainFrames_of_needMore (tryReadFrame_short hshort)]
  · rw [serialize_cons m hlen]
    have hk4 : k = 4 + (k - 4) := by omega
    rw [hk4, show ((encodeMessage m).length / 2 ^ 24 % 256 ::
      (encodeMessage m).length / 2 ^ 16 % 256 ::
      (encodeMessage m).length / 2 ^ 8 % 256 ::
      (encodeMessage m).length % 256 :: encodeMessage m) =
      [(encodeMessage m).length / 2 ^ 24 % 256,
       (encodeMessage m).length / 2 ^ 16 % 256,
       (encodeMessage m).length / 2 ^ 8 % 256,
       (encodeMessage m).length % 256] ++ encodeMessage m from rfl,
      List.take_append_eq_append_take]
    rw [List.take_of_length_le (by simp)]
    simp only [List.length_cons, List.length_nil]
    rw [show 4 + (k - 4) - 4 = k - 4 by omega]
    simp only [List.cons_append, List.nil_append]
    rw [drainFrames_of_needMore (by
      simp only [tryReadFrame]
      rw [if_pos (by
        rw [List.length_take]
        omega)])]

/-- Claim C8: chunking invariance of the frame reader — feeding any
partition of a byte sequence chunk by chunk into a fresh reader, draining
after each feed, produces the same frames as feeding everything at once;
in particular a serialized frame (payload below the `u32` bound) fed one
byte at a time produces exactly that one frame, and nothing before the
final byte. -/
theorem c8_chunked_feeding_equals_single_feed :
    (∀ chunks : List (List Nat),
      processChunks [] chunks = (drainFrames chunks.flatten).1) ∧
    (∀ m : Message, m.wfb = true → (encodeMessage m).length < 2 ^ 32 →
      processChunks [] ((Frame.serialize m).map (fun x => [x])) =
        [⟨(encodeMessage m).length, m⟩] ∧
      (∀ k, k < (Frame.serialize m).length →
        processChunks [] (((Frame.serialize m).map (fun x => [x])).take k) =
          [])) := by
  refine ⟨processChunks_nil_start, ?_⟩
  intro m hwf hlen
  constructor
  · rw [processChunks_nil_start, flatten_map_singleton,
      drainFrames_serialize m hwf hlen]
  · intro k hk
    rw [processChunks_nil_start, ← List.map_take, flatten_map_singleton]
    exact drainFrames_serialize_take m k hlen hk

/-- Witness for C8 at a concrete message fed byte by byte: the frame
appears only with the full feed, and a 3-byte prefix feed yields
nothing. -/
theorem c8_chunked_feeding_equals_single_feed_witness :
    processChunks [] ((Frame.serialize (Message.Heartbeat 0)).map
        (fun x => [x])) =
      [⟨(encodeMessage (Message.Heartbeat 0)).length, Message.Heartbeat 0⟩] ∧
    processChunks [] (((Frame.serialize (Message.Heartbeat 0)).map
        (fun x => [x])).take 3) = [] :=
  ⟨(c8_chunked_feeding_equals_single_feed.2 (Message.Heartbeat 0)
      (by decide) (by decide)).1,
   (c8_chunked_feeding_equals_single_feed.2 (Message.Heartbeat 0)
      (by decide) (by decide)).2 3 (by decide)⟩

/-- Claim C9: `derive_session_key` is HKDF-SHA256 with absent (empty)
salt, IKM the token bytes and info the client id bytes (extract then a
single expand block), always returns a 32-byte key, and identical inputs
yield identical keys. -/
theorem c9_derive_session_key_hkdf (token client_id token' client_id' : List Nat)
    (h1 : token = token') (h2 : client_id = client_id') :
    derive_session_key token client_id =
      hmacSha256 (hmacSha256 [] token) (client_id ++ [1]) ∧
    (derive_session_key token client_id).length = 32 ∧
    derive_session_key token client_id =
      derive_session_key token' client_id' := by
  subst h1
  subst h2
  exact ⟨rfl, hmacSha256_length _ _, rfl⟩

/-- Witness for C9 at concrete inputs (token `"a"`, client id `"b"`). -/
theorem c9_derive_session_key_hkdf_witness :
    derive_session_key [97] [98] =
      hmacSha256 (hmacSha256 [] [97]) ([98] ++ [1]) ∧
    (derive_session_key [97] [98]).length = 32 ∧
    derive_session_key [97] [98] = derive_session_key [97] [98] :=
  c9_derive_session_key_hkdf [97] [98] [97] [98] rfl rfl

/-- Claim C10: when the buffer holds a complete frame region
(`4 + length` bytes) whose payload fails to deserialize, `try_read_frame`
returns the error and leaves the buffer unchanged, so calling it again on
the resulting buffer returns the very same error — the reader never skips
a malformed frame. -/
theorem c10_malformed_frame_error_is_sticky (b0 b1 b2 b3 : Nat)
    (rest : List Nat) (e : String)
    (hlen : b0 * 2 ^ 24 + b1 * 2 ^ 16 + b2 * 2 ^ 8 + b3 ≤ rest.length)
    (hbad : Frame.deserialize (b0 :: b1 :: b2 :: b3 ::
        rest.take (b0 * 2 ^ 24 + b1 * 2 ^ 16 + b2 * 2 ^ 8 + b3)) = .error e) :
    tryReadFrame (b0 :: b1 :: b2 :: b3 :: rest) =
      (.failed ("Frame deserialization error: " ++ e),
        b0 :: b1 :: b2 :: b3 :: rest) ∧
    tryReadFrame (tryReadFrame (b0 :: b1 :: b2 :: b3 :: rest)).2 =
      tryReadFrame (b0 :: b1 :: b2 :: b3 :: rest) := by
  have h1 : tryReadFrame (b0 :: b1 :: b2 :: b3 :: rest) =
      (.failed ("Frame deserialization error: " ++ e),
        b0 :: b1 :: b2 :: b3 :: rest) := by
    simp only [tryReadFrame]
    rw [if_neg (by omega), hbad]
  refine ⟨h1, ?_⟩
  rw [h1]
  exact h1

/-- Witness for C10: a framed 1-byte payload `[200]` has no valid
discriminant, so the reader reports the same deserialization error on
every call and keeps the bytes buffered. -/
theorem c10_malformed_frame_error_is_sticky_witness :
    tryReadFrame [0, 0, 0, 1, 200] =
      (.failed ("Frame deserialization error: " ++
        "Deserialization error: Invalid message discriminant"),
        [0, 0, 0, 1, 200]) ∧
    tryReadFrame (tryReadFrame [0, 0, 0, 1, 200]).2 =
      tryReadFrame [0, 0, 0, 1, 200] :=
  c10_malformed_frame_error_is_sticky 0 0 0 1 [200]
    "Deserialization error: Invalid message discriminant"
    (by decide) (by decide)

end Sowback
